import Mathlib

/-!
Shallow embedding of the study-planning engine
(`src/core/study/engine.ts`, `src/adapter/studyAdapter.ts`).

JavaScript numbers are modelled as rationals (`ℚ`); `Math.floor`,
`Math.ceil` and `Math.round` become the exact integer operations; the one
place where a JS division can produce a non-finite value (`NaN` or
`Infinity`, namely `usedMinutes / maxUsableMinutes` with a zero divisor)
is modelled with `Option ℚ`, `none` standing for the non-finite result.
`Array.prototype.sort` with a numeric comparator is modelled as a stable
insertion sort (the comparator semantics mandated for consistent
comparators).  `Map<string, number>` with `get(k) || 0` is modelled as a
total function `String → Nat` defaulting to `0`.
-/

namespace StudyEngine

-- ═════════════════════════════════════════════════════════════════════
-- TYPES (engine.ts lines 8-131)
-- ═════════════════════════════════════════════════════════════════════

inductive TimeOfDay where
  | dawn | morning | evening | night
deriving DecidableEq, BEq, Repr

inductive SlotType where
  | unavailable | not_preferred
deriving DecidableEq, BEq, Repr

inductive DayStatus where
  | on_track | behind | fatigued | overperforming
deriving DecidableEq, BEq, Repr

structure UnavailableSlot where
  dayOfWeek : Nat
  startMinutes : ℚ
  endMinutes : ℚ
  type : SlotType
deriving DecidableEq, Repr

structure UserPreferences where
  sleepTimeMinutes : ℚ
  wakeTimeMinutes : ℚ
  preferredActivityTime : TimeOfDay
  maxConsecutivePomodoros : Nat
  unavailableSlots : List UnavailableSlot
deriving DecidableEq, Repr

structure Task where
  id : String
  name : String
  estimatedHours : ℚ
  urgency : ℚ
  deadlineDayIndex : Option Int
deriving DecidableEq, Repr

structure ScheduledSession where
  id : String
  taskId : String
  dayOfWeek : Nat
  startMinutes : ℚ
  endMinutes : ℚ
  sequenceNumber : Nat
deriving DecidableEq, Repr

structure CompletedSession where
  taskId : String
  durationMinutes : ℚ
  focusRating : ℚ
  dayOfWeek : Nat
  timeOfDay : TimeOfDay
  sequenceNumber : Option Nat
deriving DecidableEq, Repr

structure DailyMetrics where
  status : DayStatus
  plannedMinutes : ℚ
  actualMinutes : ℚ
  adherenceScore : ℚ
  focusScore : ℚ
  adjustmentFactor : ℚ
deriving DecidableEq, Repr

structure TaskPerformance where
  taskId : String
  estimatedHours : ℚ
  actualHours : ℚ
  averageFocus : ℚ
  efficiency : ℚ
deriving DecidableEq, Repr

structure WeeklyMetrics where
  plannedHours : ℚ
  actualHours : ℚ
  estimationAccuracy : ℚ
  averageFocus : ℚ
  bestFocusTime : Option TimeOfDay
  worstFocusTime : Option TimeOfDay
  fatigueIndicator : ℚ
  taskPerformance : List TaskPerformance
deriving DecidableEq, Repr

structure TimeBlock where
  dayOfWeek : Nat
  startMinutes : ℚ
  endMinutes : ℚ
  isPreferred : Bool
deriving DecidableEq, Repr

structure WeightedTimeBlock extends TimeBlock where
  weight : ℚ
deriving DecidableEq, Repr

/-- `utilizationRate` is `Option ℚ`: `none` models the non-finite JS value
(`0/0 = NaN`) that `usedMinutes / maxUsableMinutes` yields at a zero
ceiling. -/
structure ScheduleProposal where
  sessions : List ScheduledSession
  totalPlannedHours : ℚ
  utilizationRate : Option ℚ
deriving DecidableEq, Repr

structure FocusProfile where
  timeOfDayScores : TimeOfDay → ℚ
  sampleCount : Nat

-- ═════════════════════════════════════════════════════════════════════
-- JS primitives
-- ═════════════════════════════════════════════════════════════════════

/-- `Math.round` on a rational: round half toward positive infinity. -/
def jsRound (x : ℚ) : ℚ := ((⌊x + 1/2⌋ : ℤ) : ℚ)

/-- JS division producing `none` for a non-finite result (divisor `0`
gives `NaN` or `±Infinity`). -/
def jsDiv (a b : ℚ) : Option ℚ := if b = 0 then none else some (a / b)

/-- Insert `x` behind every already-placed element `y` with `le y x`
(models the placement a stable comparator sort gives an element). -/
def insertSorted {α : Type} (le : α → α → Bool) (x : α) : List α → List α
  | [] => [x]
  | y :: ys => if le y x then y :: insertSorted le x ys else x :: y :: ys

/-- Stable sort (insertion sort) modelling `Array.prototype.sort` with a
consistent numeric comparator: `le a b` means the comparator returns
`≤ 0` on `(a, b)`, so `a` may stay in front of `b`; ties keep input
order. -/
def stableSort {α : Type} (le : α → α → Bool) (l : List α) : List α :=
  l.foldl (fun acc x => insertSorted le x acc) []

-- ═════════════════════════════════════════════════════════════════════
-- TIME UTILITIES (engine.ts lines 137-182)
-- ═════════════════════════════════════════════════════════════════════

def getTimeOfDay (minutes : ℚ) : TimeOfDay :=
  if 240 ≤ minutes ∧ minutes < 720 then .dawn
  else if 720 ≤ minutes ∧ minutes < 1020 then .morning
  else if 1020 ≤ minutes ∧ minutes < 1260 then .evening
  else .night

/-- One step of the cursor walk over the sorted unavailable slots of a
day: emit the gap before `slot` when it is long enough, then advance the
cursor to `max cursor slot.endMinutes`. -/
def carveStep (dayOfWeek : Nat) (minSessionMinutes : ℚ)
    (acc : List TimeBlock × ℚ) (slot : UnavailableSlot) : List TimeBlock × ℚ :=
  let blocks :=
    if acc.2 < slot.startMinutes ∧ minSessionMinutes ≤ slot.startMinutes - acc.2 then
      acc.1 ++ [⟨dayOfWeek, acc.2, slot.startMinutes,
                 if slot.type = SlotType.not_preferred then false else true⟩]
    else acc.1
  (blocks, max acc.2 slot.endMinutes)

def calculateAvailableBlocks (dayOfWeek : Nat) (preferences : UserPreferences)
    (minSessionMinutes : ℚ) : List TimeBlock :=
  let daySlots := preferences.unavailableSlots.filter (fun s => s.dayOfWeek == dayOfWeek)
  let sortedSlots := stableSort (fun a b => decide (a.startMinutes ≤ b.startMinutes)) daySlots
  let r := sortedSlots.foldl (carveStep dayOfWeek minSessionMinutes)
      ([], preferences.wakeTimeMinutes)
  let dayEnd := preferences.sleepTimeMinutes
  if r.2 < dayEnd ∧ minSessionMinutes ≤ dayEnd - r.2 then
    r.1 ++ [⟨dayOfWeek, r.2, dayEnd, true⟩]
  else r.1

-- ═════════════════════════════════════════════════════════════════════
-- FOCUS PROFILE & WEIGHTING (engine.ts lines 188-257)
-- ═════════════════════════════════════════════════════════════════════

def buildFocusProfile (completedSessions : List CompletedSession) : FocusProfile :=
  { timeOfDayScores := fun t =>
      let l := completedSessions.filter (fun s => s.timeOfDay == t)
      if 0 < l.length then (l.map (·.focusRating)).sum / (l.length : ℚ) else 3,
    sampleCount := completedSessions.length }

def calculateBlockWeight (block : TimeBlock) (focusProfile : FocusProfile)
    (bestFocusTime : Option TimeOfDay) : ℚ :=
  let w1 : ℚ := if block.isPreferred then 14/10 else 6/10
  let blockTime := getTimeOfDay block.startMinutes
  let w2 :=
    if 5 ≤ focusProfile.sampleCount then
      w1 * (7/10 + (focusProfile.timeOfDayScores blockTime / 5) * (6/10))
    else w1
  match bestFocusTime with
  | some t => if blockTime = t then w2 * (13/10) else w2
  | none => w2

def weightAndSortBlocks (blocks : List TimeBlock) (focusProfile : FocusProfile)
    (bestFocusTime : Option TimeOfDay) : List WeightedTimeBlock :=
  let weighted := blocks.map
    (fun b => ⟨b, calculateBlockWeight b focusProfile bestFocusTime⟩)
  stableSort (fun a b => decide (b.weight ≤ a.weight)) weighted

-- ═════════════════════════════════════════════════════════════════════
-- FATIGUE & ADJUSTMENT (engine.ts lines 263-281)
-- ═════════════════════════════════════════════════════════════════════

def applyAdjustmentFactorToCapacity (totalAvailableMinutes : ℚ)
    (dailyMetrics : List DailyMetrics) (fatigueIndicator : ℚ) : ℚ :=
  let avgAdjustment := (dailyMetrics.map (·.adjustmentFactor)).sum /
      ((max dailyMetrics.length 1 : ℕ) : ℚ)
  let capacityMultiplier :=
    if 3/10 < fatigueIndicator then avgAdjustment * (1 - fatigueIndicator * (3/10))
    else avgAdjustment
  let clamped := max (1/2) (min 1 capacityMultiplier)
  totalAvailableMinutes * (3/4) * clamped

-- ═════════════════════════════════════════════════════════════════════
-- SESSION BREAK LOGIC (engine.ts lines 287-304)
-- ═════════════════════════════════════════════════════════════════════

structure BreakDecision where
  insert : Bool
  breakMinutes : ℚ
deriving DecidableEq, Repr

def shouldInsertBreak (consecutiveCount maxConsecutive : Nat)
    (blockRemainingMinutes pomodoroMinutes : ℚ) : BreakDecision :=
  if consecutiveCount < maxConsecutive then ⟨false, 0⟩
  else
    let breakMinutes := jsRound (pomodoroMinutes * (4/10))
    if breakMinutes ≤ blockRemainingMinutes then ⟨true, breakMinutes⟩
    else ⟨false, 0⟩

-- ═════════════════════════════════════════════════════════════════════
-- TASK PRIORITIZATION (engine.ts lines 310-331)
-- ═════════════════════════════════════════════════════════════════════

def calculateTaskPriority (task : Task) (currentDay : Int) : ℚ :=
  let base := task.urgency * 100
  let score :=
    match task.deadlineDayIndex with
    | none => base
    | some d =>
      let daysUntilDeadline := d - currentDay
      if 0 < daysUntilDeadline then base + (1 / (daysUntilDeadline : ℚ)) * 500
      else base + 10000
  score + task.estimatedHours * 10

def sortTasksByPriority (tasks : List Task) (currentDay : Int) : List Task :=
  stableSort
    (fun a b => decide (calculateTaskPriority b currentDay ≤ calculateTaskPriority a currentDay))
    tasks

-- ═════════════════════════════════════════════════════════════════════
-- DAILY METRICS (engine.ts lines 561-605) and rolling variant (507-555)
-- ═════════════════════════════════════════════════════════════════════

def calculateDailyMetrics (dayOfWeek : Nat) (scheduledSessions : List ScheduledSession)
    (completedSessions : List CompletedSession) : DailyMetrics :=
  let daySessions := scheduledSessions.filter (fun s => s.dayOfWeek == dayOfWeek)
  let plannedMinutes := (daySessions.map (fun s => s.endMinutes - s.startMinutes)).sum
  let dayCompleted := completedSessions.filter (fun s => s.dayOfWeek == dayOfWeek)
  let actualMinutes := (dayCompleted.map (·.durationMinutes)).sum
  let adherenceScore := if 0 < plannedMinutes then actualMinutes / plannedMinutes else 0
  let focusCount := dayCompleted.length
  let focusScore :=
    if 0 < focusCount then (dayCompleted.map (·.focusRating)).sum / ((focusCount : ℚ) * 5)
    else 0
  let status : DayStatus :=
    if adherenceScore < 1/2 ∨ focusScore < 2/5 then .fatigued
    else if adherenceScore < 3/4 then .behind
    else if 11/10 < adherenceScore then .overperforming
    else .on_track
  let adjustmentFactor : ℚ :=
    if status = .fatigued then 7/10
    else if status = .behind ∧ 3/5 < focusScore then 9/10
    else 1
  ⟨status, plannedMinutes, actualMinutes, adherenceScore, focusScore, adjustmentFactor⟩

def calculateDailyMetricsForRolling (dayOfWeek : Nat)
    (previousScheduledSessions : List ScheduledSession)
    (completedSessions : List CompletedSession) : DailyMetrics :=
  let daySessions := previousScheduledSessions.filter (fun s => s.dayOfWeek == dayOfWeek)
  let dayCompleted := completedSessions.filter (fun s => s.dayOfWeek == dayOfWeek)
  let actualMinutes := (dayCompleted.map (·.durationMinutes)).sum
  let plannedMinutes0 := (daySessions.map (fun s => s.endMinutes - s.startMinutes)).sum
  let plannedMinutes :=
    if plannedMinutes0 = 0 ∧ 0 < actualMinutes then actualMinutes else plannedMinutes0
  let adherenceScore :=
    if 0 < plannedMinutes then min (actualMinutes / plannedMinutes) (3/2) else 1
  let focusCount := dayCompleted.length
  let focusScore :=
    if 0 < focusCount then (dayCompleted.map (·.focusRating)).sum / ((focusCount : ℚ) * 5)
    else 8/10
  let status : DayStatus :=
    if adherenceScore < 1/2 ∨ focusScore < 2/5 then .fatigued
    else if adherenceScore < 3/4 then .behind
    else if 11/10 < adherenceScore then .overperforming
    else .on_track
  let adjustmentFactor : ℚ :=
    if status = .fatigued then 7/10
    else if status = .behind ∧ 3/5 < focusScore then 9/10
    else 1
  ⟨status, plannedMinutes, actualMinutes, adherenceScore, focusScore, adjustmentFactor⟩

-- ═════════════════════════════════════════════════════════════════════
-- WEEKLY METRICS (engine.ts lines 611-701)
-- ═════════════════════════════════════════════════════════════════════

/-- Mutable locals of the best/worst focus-time scan. -/
structure BestWorstAcc where
  best : Option TimeOfDay
  worst : Option TimeOfDay
  maxAvg : ℚ
  minAvg : ℚ

def calculateWeeklyMetrics (tasks : List Task) (scheduledSessions : List ScheduledSession)
    (completedSessions : List CompletedSession) : WeeklyMetrics :=
  let plannedHours := (scheduledSessions.map (fun s => (s.endMinutes - s.startMinutes) / 60)).sum
  let actualHours := (completedSessions.map (fun s => s.durationMinutes / 60)).sum
  let estimationAccuracy :=
    if 0 < plannedHours then min (actualHours / plannedHours) 2 else 0
  let averageFocus :=
    if 0 < completedSessions.length then
      (completedSessions.map (·.focusRating)).sum / (completedSessions.length : ℚ)
    else 0
  let entries := [TimeOfDay.dawn, .morning, .evening, .night].map (fun t =>
    let l := completedSessions.filter (fun s => s.timeOfDay == t)
    (t, (l.map (·.focusRating)).sum, l.length))
  let bw := entries.foldl
    (fun (acc : BestWorstAcc) e =>
      if 0 < e.2.2 then
        let avg := e.2.1 / (e.2.2 : ℚ)
        let acc1 := if acc.maxAvg < avg then { acc with best := some e.1, maxAvg := avg } else acc
        if avg < acc1.minAvg then { acc1 with worst := some e.1, minAvg := avg } else acc1
      else acc)
    ⟨none, none, 0, 6⟩
  let dailyAdherence := (List.range 7).map
    (fun day => (calculateDailyMetrics day scheduledSessions completedSessions).adherenceScore)
  let avgAdherence := dailyAdherence.sum / (dailyAdherence.length : ℚ)
  let fatigueIndicator := if avgAdherence < 3/5 then 1 - avgAdherence else 0
  let taskPerformance := tasks.map (fun task =>
    let taskSessions := completedSessions.filter (fun s => s.taskId == task.id)
    let actual : ℚ := (taskSessions.map (fun s => s.durationMinutes / 60)).sum
    let avgFocus : ℚ :=
      if 0 < taskSessions.length then
        (taskSessions.map (·.focusRating)).sum / (taskSessions.length : ℚ)
      else 0
    let efficiency : ℚ :=
      if (0:ℚ) < task.estimatedHours ∧ (0:ℚ) < actual then (avgFocus / 5) * (task.estimatedHours / actual)
      else 0
    (⟨task.id, task.estimatedHours, actual, avgFocus, efficiency⟩ : TaskPerformance))
  ⟨plannedHours, actualHours, estimationAccuracy, averageFocus,
   bw.best, bw.worst, fatigueIndicator, taskPerformance⟩

-- ═════════════════════════════════════════════════════════════════════
-- SCHEDULE GENERATION (engine.ts lines 337-460)
-- ═════════════════════════════════════════════════════════════════════

/-- Mutable state threaded through the greedy packer: the emitted
sessions, the global used minutes, the synthetic session-id counter, and
the per-task consecutive-run map (`Map` with `get(k) || 0`). -/
structure PackState where
  sessions : List ScheduledSession
  usedMinutes : ℚ
  sessionId : Nat
  counts : String → Nat

/-- `Math.ceil(estimatedHours * 60 / pomodoroMinutes)` as a session count.
For `pomodoroMinutes ≤ 0` the JS bound is non-positive or non-finite and
no session is ever placed (at exactly `0` with positive demand the JS
loop diverges); theorems about the packer assume `0 < pomodoroMinutes`. -/
def sessionsNeededFor (estimatedHours pomodoroMinutes : ℚ) : Nat :=
  if 0 < pomodoroMinutes then (⌈estimatedHours * 60 / pomodoroMinutes⌉).toNat else 0

/-- The inner `while` of the packer, recursing on the number of sessions
the task still needs (every non-exiting iteration places one session).
Returns the new state and the remaining unmet session count. -/
def packBlockLoop (maxConsec : Nat) (pom maxUsable : ℚ) (taskId : String) (day : Nat)
    (blockEnd : ℚ) : Nat → ℚ → Nat → PackState → PackState × Nat
  | 0, _, _, st => (st, 0)
  | remaining + 1, cursor, count, st =>
    if cursor + pom ≤ blockEnd ∧ st.usedMinutes < maxUsable then
      let br := shouldInsertBreak count maxConsec (blockEnd - cursor) pom
      if br.insert then
        let cursor2 := cursor + br.breakMinutes
        let st2 : PackState := { st with counts := Function.update st.counts taskId 0 }
        if blockEnd < cursor2 + pom then (st2, remaining + 1)
        else
          packBlockLoop maxConsec pom maxUsable taskId day blockEnd remaining
            (cursor2 + pom) 1
            { sessions := st2.sessions ++
                [⟨"session_" ++ toString st2.sessionId, taskId, day,
                  cursor2, cursor2 + pom, 0⟩],
              usedMinutes := st2.usedMinutes + pom,
              sessionId := st2.sessionId + 1,
              counts := Function.update st2.counts taskId 1 }
      else
        packBlockLoop maxConsec pom maxUsable taskId day blockEnd remaining
          (cursor + pom) (count + 1)
          { sessions := st.sessions ++
              [⟨"session_" ++ toString st.sessionId, taskId, day,
                cursor, cursor + pom, count⟩],
            usedMinutes := st.usedMinutes + pom,
            sessionId := st.sessionId + 1,
            counts := Function.update st.counts taskId (count + 1) }
    else (st, remaining + 1)

/-- The `for (const block of blocks)` loop of the packer for one day. -/
def packBlocks (maxConsec : Nat) (pom maxUsable : ℚ) (taskId : String) (day : Nat) :
    List WeightedTimeBlock → Nat → PackState → PackState × Nat
  | [], remaining, st => (st, remaining)
  | b :: bs, remaining, st =>
    if remaining = 0 ∨ maxUsable ≤ st.usedMinutes then (st, remaining)
    else
      let r := packBlockLoop maxConsec pom maxUsable taskId day b.endMinutes remaining
          b.startMinutes (st.counts taskId) st
      packBlocks maxConsec pom maxUsable taskId day bs r.2
        { r.1 with counts := Function.update r.1.counts taskId 0 }

/-- The `for (let day = 0; day < 7 && ...)` loop of the packer. -/
def packDays (maxConsec : Nat) (pom maxUsable : ℚ) (taskId : String) :
    List (Nat × List WeightedTimeBlock) → Nat → PackState → PackState × Nat
  | [], remaining, st => (st, remaining)
  | p :: rest, remaining, st =>
    if remaining = 0 then (st, remaining)
    else
      let r := packBlocks maxConsec pom maxUsable taskId p.1 p.2 remaining st
      packDays maxConsec pom maxUsable taskId rest r.2 r.1

/-- The `for (const task of sortedTasks)` loop of the packer. -/
def packTasks (maxConsec : Nat) (pom maxUsable : ℚ)
    (weekBlocks : List (Nat × List WeightedTimeBlock)) : List Task → PackState → PackState
  | [], st => st
  | t :: ts, st =>
    let r := packDays maxConsec pom maxUsable t.id weekBlocks
        (sessionsNeededFor t.estimatedHours pom) st
    packTasks maxConsec pom maxUsable weekBlocks ts r.1

/-- `weeklyMetrics` computed inside the packer: only when history is
non-empty (`completedSessions.length > 0`). -/
def weeklyMetricsFor (tasks : List Task) (completed : List CompletedSession) :
    Option WeeklyMetrics :=
  if 0 < completed.length then some (calculateWeeklyMetrics tasks [] completed) else none

/-- `weeklyMetrics?.bestFocusTime || null`. -/
def bestFocusTimeFor (tasks : List Task) (completed : List CompletedSession) :
    Option TimeOfDay :=
  match weeklyMetricsFor tasks completed with
  | some w => w.bestFocusTime
  | none => none

/-- `weeklyMetrics?.fatigueIndicator || 0`. -/
def fatigueFor (tasks : List Task) (completed : List CompletedSession) : ℚ :=
  match weeklyMetricsFor tasks completed with
  | some w => w.fatigueIndicator
  | none => 0

/-- The per-day weighted block lists built by the packer (days 0..6). -/
def weekBlocksFor (tasks : List Task) (completed : List CompletedSession)
    (preferences : UserPreferences) (pom : ℚ) : List (Nat × List WeightedTimeBlock) :=
  (List.range 7).map (fun day =>
    (day, weightAndSortBlocks (calculateAvailableBlocks day preferences pom)
        (buildFocusProfile completed) (bestFocusTimeFor tasks completed)))

/-- `weekBlocks.flat().reduce((sum, b) => sum + (b.end - b.start), 0)`. -/
def totalAvailableMinutesFor (tasks : List Task) (completed : List CompletedSession)
    (preferences : UserPreferences) (pom : ℚ) : ℚ :=
  ((weekBlocksFor tasks completed preferences pom).map
    (fun p => ((p.2.map (fun b => b.endMinutes - b.startMinutes)).sum))).sum

/-- The capacity ceiling (`maxUsableMinutes`) the packer computes. -/
def maxUsableMinutesFor (tasks : List Task) (preferences : UserPreferences) (pom : ℚ)
    (completed : List CompletedSession) (dailyMetrics : List DailyMetrics) : ℚ :=
  applyAdjustmentFactorToCapacity (totalAvailableMinutesFor tasks completed preferences pom)
    dailyMetrics (fatigueFor tasks completed)

def generateProposedWeeklyScheduleWithHistory (tasks : List Task)
    (preferences : UserPreferences) (currentDay : Int) (pomodoroMinutes : ℚ)
    (completedSessions : List CompletedSession) (dailyMetrics : List DailyMetrics) :
    ScheduleProposal :=
  let sortedTasks := sortTasksByPriority tasks currentDay
  let maxUsableMinutes := maxUsableMinutesFor tasks preferences pomodoroMinutes
      completedSessions dailyMetrics
  let st := packTasks preferences.maxConsecutivePomodoros pomodoroMinutes maxUsableMinutes
      (weekBlocksFor tasks completedSessions preferences pomodoroMinutes) sortedTasks
      ⟨[], 0, 0, fun _ => 0⟩
  ⟨st.sessions, st.usedMinutes / 60, jsDiv st.usedMinutes maxUsableMinutes⟩

def generateProposedWeeklySchedule (tasks : List Task) (preferences : UserPreferences)
    (currentDay : Int) (pomodoroMinutes : ℚ) : ScheduleProposal :=
  generateProposedWeeklyScheduleWithHistory tasks preferences currentDay pomodoroMinutes [] []

-- ═════════════════════════════════════════════════════════════════════
-- ADAPTER (studyAdapter.ts)
-- ═════════════════════════════════════════════════════════════════════

def runStudyPlanning (tasks : List Task) (completedSessions : List CompletedSession)
    (preferences : UserPreferences) (currentDay : Int) (pomodoroMinutes : ℚ) :
    ScheduleProposal :=
  generateProposedWeeklySchedule tasks preferences currentDay pomodoroMinutes

/-- The external event store (`supabase`, spec section 6) modelled as a
pure lookup from user id to the stored completed sessions (the adapter
already collapses errors to `[]`). -/
def loadCompletedStudySessions (store : String → List CompletedSession)
    (userId : String) : List CompletedSession :=
  store userId

def runStudyPlanningFromDB (store : String → List CompletedSession) (userId : String)
    (tasks : List Task) (preferences : UserPreferences) (currentDay : Int)
    (pomodoroMinutes : ℚ) : ScheduleProposal :=
  let completedSessions := loadCompletedStudySessions store userId
  generateProposedWeeklySchedule tasks preferences currentDay pomodoroMinutes

-- ═════════════════════════════════════════════════════════════════════
-- Concrete inputs used by counterexamples and witnesses
-- ═════════════════════════════════════════════════════════════════════

/-- Tiny sleep window: one 25-minute block per day, so the ceiling
(65.625 min) is overshot after three 25-minute sessions. -/
def c1Prefs : UserPreferences := ⟨25, 0, .morning, 4, []⟩

def c1Task : Task := ⟨"t1", "t1", 10, 0, none⟩

def c2Prefs : UserPreferences := ⟨1320, 480, .morning, 4, []⟩

def c2TaskA : Task := ⟨"a", "a", 1, 5, none⟩

def c2TaskB : Task := ⟨"b", "b", 1, 5, none⟩

/-- Wake time equals sleep time: no free blocks, zero capacity ceiling. -/
def c4Prefs : UserPreferences := ⟨480, 480, .morning, 4, []⟩

def c4Task : Task := ⟨"t1", "t1", 2, 5, none⟩

/-- Sleep at 600, but an unavailable slot starting at 700 makes the free
block run to 700, past sleep time. -/
def c5Prefs : UserPreferences := ⟨600, 480, .morning, 100, [⟨0, 700, 800, .unavailable⟩]⟩

def c5Task : Task := ⟨"t1", "t1", 2, 5, none⟩

def c5wPrefs : UserPreferences := ⟨1320, 480, .morning, 4, []⟩

def c5wTask : Task := ⟨"t1", "Task", 2, 5, none⟩

def c5wSession : ScheduledSession := ⟨"session_0", "t1", 0, 480, 505, 0⟩

def c6Prefs : UserPreferences := ⟨1320, 480, .morning, 4, []⟩

def c6Task : Task := ⟨"t1", "Task", 2, 5, none⟩

def c7Overdue : Task := ⟨"a", "a", 0, 0, some 0⟩

def c7Future : Task := ⟨"b", "b", 1, 100, some 1⟩

def c7wOverdue : Task := ⟨"o", "o", 1, 0, some 0⟩

def c7wFuture : Task := ⟨"f", "f", 1, 50, some 2⟩

-- ═════════════════════════════════════════════════════════════════════
-- Sorting lemmas
-- ═════════════════════════════════════════════════════════════════════

theorem mem_insertSorted {α : Type} (le : α → α → Bool) (x a : α) (l : List α) :
    a ∈ insertSorted le x l ↔ a = x ∨ a ∈ l := by
  induction l with
  | nil => simp [insertSorted]
  | cons y ys ih =>
    simp only [insertSorted]
    by_cases h : le y x = true
    · rw [if_pos h]
      simp only [List.mem_cons, ih]
      try tauto
    · rw [if_neg h]
      simp only [List.mem_cons]
      try tauto

theorem mem_stableSort {α : Type} (le : α → α → Bool) (a : α) (l : List α) :
    a ∈ stableSort le l ↔ a ∈ l := by
  have h : ∀ (l acc : List α),
      (a ∈ l.foldl (fun acc x => insertSorted le x acc) acc ↔ a ∈ acc ∨ a ∈ l) := by
    intro l
    induction l with
    | nil => intro acc; simp
    | cons y ys ih =>
      intro acc
      simp only [List.foldl_cons]
      rw [ih, mem_insertSorted]
      simp only [List.mem_cons]
      tauto
  simpa [stableSort] using h l []

-- ═════════════════════════════════════════════════════════════════════
-- Availability-block invariants
-- ═════════════════════════════════════════════════════════════════════

theorem carve_foldl_inv (day : Nat) (m : ℚ) (I : ℚ → Prop) (Q : TimeBlock → Prop) :
    ∀ slots : List UnavailableSlot,
      (∀ c, ∀ sl ∈ slots, I c → I (max c sl.endMinutes)) →
      (∀ c, ∀ sl ∈ slots, I c → c < sl.startMinutes → m ≤ sl.startMinutes - c →
        ∀ ip : Bool, Q ⟨day, c, sl.startMinutes, ip⟩) →
      ∀ acc : List TimeBlock × ℚ, (∀ b ∈ acc.1, Q b) → I acc.2 →
        (∀ b ∈ (slots.foldl (carveStep day m) acc).1, Q b) ∧
          I (slots.foldl (carveStep day m) acc).2 := by
  intro slots
  induction slots with
  | nil => intro _ _ acc h1 h2; exact ⟨h1, h2⟩
  | cons sl rest ih =>
    intro hI hQ acc h1 h2
    simp only [List.foldl_cons]
    refine ih
      (fun c sl' hm hc => hI c sl' (List.mem_cons_of_mem _ hm) hc)
      (fun c sl' hm hc h3 h4 ip => hQ c sl' (List.mem_cons_of_mem _ hm) hc h3 h4 ip)
      (carveStep day m acc sl) ?_ ?_
    · intro b hb
      simp only [carveStep] at hb
      split at hb
      next hcond =>
        rcases List.mem_append.mp hb with h' | h'
        · exact h1 b h'
        · simp only [List.mem_singleton] at h'
          subst h'
          exact hQ acc.2 sl (List.mem_cons_self _ _) h2 hcond.1 hcond.2 _
      next => exact h1 b hb
    · simp only [carveStep]
      exact hI acc.2 sl (List.mem_cons_self _ _) h2

theorem calculateAvailableBlocks_forall (day : Nat) (prefs : UserPreferences) (m : ℚ)
    (I : ℚ → Prop) (Q : TimeBlock → Prop)
    (hI0 : I prefs.wakeTimeMinutes)
    (hI : ∀ c, ∀ sl ∈ prefs.unavailableSlots, I c → I (max c sl.endMinutes))
    (hQgap : ∀ c, ∀ sl ∈ prefs.unavailableSlots, I c → c < sl.startMinutes →
      m ≤ sl.startMinutes - c → ∀ ip : Bool, Q ⟨day, c, sl.startMinutes, ip⟩)
    (hQfin : ∀ c, I c → c < prefs.sleepTimeMinutes → m ≤ prefs.sleepTimeMinutes - c →
      Q ⟨day, c, prefs.sleepTimeMinutes, true⟩) :
    ∀ b ∈ calculateAvailableBlocks day prefs m, Q b := by
  intro b hb
  simp only [calculateAvailableBlocks] at hb
  have hsub : ∀ sl ∈ stableSort (fun a b => decide (a.startMinutes ≤ b.startMinutes))
      (prefs.unavailableSlots.filter (fun s => s.dayOfWeek == day)),
      sl ∈ prefs.unavailableSlots := by
    intro sl hsl
    rw [mem_stableSort] at hsl
    exact (List.mem_filter.mp hsl).1
  have main := carve_foldl_inv day m I Q _
    (fun c sl hm hc => hI c sl (hsub sl hm) hc)
    (fun c sl hm hc h3 h4 ip => hQgap c sl (hsub sl hm) hc h3 h4 ip)
    ([], prefs.wakeTimeMinutes) (by simp) hI0
  split at hb
  next h =>
    rcases List.mem_append.mp hb with h' | h'
    · exact main.1 b h'
    · simp only [List.mem_singleton] at h'
      subst h'
      exact hQfin _ main.2 h.1 h.2
  next => exact main.1 b hb

theorem blocks_nonneg_duration (day : Nat) (prefs : UserPreferences) (m : ℚ) :
    ∀ b ∈ calculateAvailableBlocks day prefs m, 0 ≤ b.endMinutes - b.startMinutes := by
  refine calculateAvailableBlocks_forall day prefs m (fun _ => True)
    (fun b => 0 ≤ b.endMinutes - b.startMinutes) trivial
    (fun _ _ _ _ => trivial) ?_ ?_
  · intro c sl _ _ hc _ _
    dsimp only
    linarith
  · intro c _ hc _
    dsimp only
    linarith

theorem blocks_in_window (day : Nat) (prefs : UserPreferences) (m : ℚ)
    (hsl : ∀ sl ∈ prefs.unavailableSlots, sl.startMinutes ≤ prefs.sleepTimeMinutes) :
    ∀ b ∈ calculateAvailableBlocks day prefs m,
      prefs.wakeTimeMinutes ≤ b.startMinutes ∧ b.endMinutes ≤ prefs.sleepTimeMinutes := by
  refine calculateAvailableBlocks_forall day prefs m
    (fun c => prefs.wakeTimeMinutes ≤ c)
    (fun b => prefs.wakeTimeMinutes ≤ b.startMinutes ∧ b.endMinutes ≤ prefs.sleepTimeMinutes)
    (le_refl _) ?_ ?_ ?_
  · intro c sl _ hc
    exact le_trans hc (le_max_left _ _)
  · intro c sl hm hc _ _ ip
    exact ⟨hc, hsl sl hm⟩
  · intro c hc _ _
    exact ⟨hc, le_refl _⟩

theorem mem_weightAndSortBlocks (blocks : List TimeBlock) (fp : FocusProfile)
    (bft : Option TimeOfDay) (wb : WeightedTimeBlock)
    (h : wb ∈ weightAndSortBlocks blocks fp bft) : wb.toTimeBlock ∈ blocks := by
  simp only [weightAndSortBlocks] at h
  rw [mem_stableSort] at h
  rcases List.mem_map.mp h with ⟨tb, htb, rfl⟩
  exact htb

theorem totalAvailableMinutesFor_nonneg (tasks : List Task)
    (completed : List CompletedSession) (prefs : UserPreferences) (pom : ℚ) :
    0 ≤ totalAvailableMinutesFor tasks completed prefs pom := by
  unfold totalAvailableMinutesFor
  apply List.sum_nonneg
  intro x hx
  rcases List.mem_map.mp hx with ⟨p, hp, rfl⟩
  apply List.sum_nonneg
  intro y hy
  rcases List.mem_map.mp hy with ⟨b, hb, rfl⟩
  unfold weekBlocksFor at hp
  rcases List.mem_map.mp hp with ⟨day, _, rfl⟩
  exact blocks_nonneg_duration day prefs pom _ (mem_weightAndSortBlocks _ _ _ b hb)

theorem maxUsableMinutesFor_nonneg (tasks : List Task) (prefs : UserPreferences)
    (pom : ℚ) (completed : List CompletedSession) (daily : List DailyMetrics) :
    0 ≤ maxUsableMinutesFor tasks prefs pom completed daily := by
  unfold maxUsableMinutesFor applyAdjustmentFactorToCapacity
  refine mul_nonneg (mul_nonneg (totalAvailableMinutesFor_nonneg tasks completed prefs pom)
    (by norm_num)) ?_
  exact le_trans (by norm_num : (0:ℚ) ≤ 1/2) (le_max_left _ _)

-- ═════════════════════════════════════════════════════════════════════
-- Packer invariants: used minutes stay below ceiling + one pomodoro
-- ═════════════════════════════════════════════════════════════════════

theorem packBlockLoop_used (maxConsec : Nat) (pom maxUsable : ℚ) (taskId : String)
    (day : Nat) (blockEnd : ℚ) :
    ∀ (remaining : Nat) (cursor : ℚ) (count : Nat) (st : PackState),
      st.usedMinutes < maxUsable + pom →
      (packBlockLoop maxConsec pom maxUsable taskId day blockEnd
        remaining cursor count st).1.usedMinutes < maxUsable + pom := by
  intro remaining
  induction remaining with
  | zero => intro cursor count st h; simpa only [packBlockLoop] using h
  | succ r ih =>
    intro cursor count st h
    simp only [packBlockLoop]
    split
    next hcond =>
      split
      next =>
        split
        next => exact h
        next =>
          apply ih
          dsimp only
          linarith [hcond.2]
      next =>
        apply ih
        dsimp only
        linarith [hcond.2]
    next => exact h

theorem packBlocks_used (maxConsec : Nat) (pom maxUsable : ℚ) (taskId : String)
    (day : Nat) :
    ∀ (blocks : List WeightedTimeBlock) (remaining : Nat) (st : PackState),
      st.usedMinutes < maxUsable + pom →
      (packBlocks maxConsec pom maxUsable taskId day
        blocks remaining st).1.usedMinutes < maxUsable + pom := by
  intro blocks
  induction blocks with
  | nil => intro remaining st h; simpa only [packBlocks] using h
  | cons b bs ih =>
    intro remaining st h
    simp only [packBlocks]
    split
    next => exact h
    next =>
      apply ih
      exact packBlockLoop_used maxConsec pom maxUsable taskId day b.endMinutes
        remaining b.startMinutes (st.counts taskId) st h

theorem packDays_used (maxConsec : Nat) (pom maxUsable : ℚ) (taskId : String) :
    ∀ (dayBlocks : List (Nat × List WeightedTimeBlock)) (remaining : Nat) (st : PackState),
      st.usedMinutes < maxUsable + pom →
      (packDays maxConsec pom maxUsable taskId
        dayBlocks remaining st).1.usedMinutes < maxUsable + pom := by
  intro dayBlocks
  induction dayBlocks with
  | nil => intro remaining st h; simpa only [packDays] using h
  | cons p rest ih =>
    intro remaining st h
    simp only [packDays]
    split
    next => exact h
    next =>
      apply ih
      exact packBlocks_used maxConsec pom maxUsable taskId p.1 p.2 remaining st h

theorem packTasks_used (maxConsec : Nat) (pom maxUsable : ℚ)
    (weekBlocks : List (Nat × List WeightedTimeBlock)) :
    ∀ (ts : List Task) (st : PackState),
      st.usedMinutes < maxUsable + pom →
      (packTasks maxConsec pom maxUsable weekBlocks ts st).usedMinutes < maxUsable + pom := by
  intro ts
  induction ts with
  | nil => intro st h; simpa only [packTasks] using h
  | cons t rest ih =>
    intro st h
    simp only [packTasks]
    apply ih
    exact packDays_used maxConsec pom maxUsable t.id weekBlocks
      (sessionsNeededFor t.estimatedHours pom) st h

-- ═════════════════════════════════════════════════════════════════════
-- C1
-- ═════════════════════════════════════════════════════════════════════

set_option maxRecDepth 10000 in
/-- C1 (counterexample): the claim `totalPlannedHours × 60 ≤
maxUsableMinutes` fails: with a 25-minute window per day and a 10-hour
task, the packer places 75 minutes against a ceiling of 65.625 minutes
(the ceiling check runs before each placement, not after). -/
theorem C1_counterexample :
    ¬ ((generateProposedWeeklySchedule [c1Task] c1Prefs 0 25).totalPlannedHours * 60 ≤
        maxUsableMinutesFor [c1Task] c1Prefs 25 [] []) := by with_unfolding_all decide

/-- C1 (amended): the total scheduled time can exceed the Capacity
Adjuster's ceiling, but by strictly less than one pomodoro:
`totalPlannedHours × 60 < maxUsableMinutes + pomodoroMinutes`, for every
task list, preferences, history, daily metrics and positive pomodoro
length. -/
theorem C1_amended (tasks : List Task) (preferences : UserPreferences) (currentDay : Int)
    (pomodoroMinutes : ℚ) (completedSessions : List CompletedSession)
    (dailyMetrics : List DailyMetrics) (hpom : 0 < pomodoroMinutes) :
    (generateProposedWeeklyScheduleWithHistory tasks preferences currentDay pomodoroMinutes
        completedSessions dailyMetrics).totalPlannedHours * 60 <
      maxUsableMinutesFor tasks preferences pomodoroMinutes completedSessions dailyMetrics
        + pomodoroMinutes := by
  have hnn := maxUsableMinutesFor_nonneg tasks preferences pomodoroMinutes
    completedSessions dailyMetrics
  simp only [generateProposedWeeklyScheduleWithHistory]
  rw [div_mul_cancel₀ _ (by norm_num : (60:ℚ) ≠ 0)]
  apply packTasks_used
  dsimp only
  linarith

/-- C1 (witness): the amended bound at the counterexample input:
75 < 65.625 + 25. -/
theorem C1_amended_witness :
    (0:ℚ) < 25 ∧
    (generateProposedWeeklyScheduleWithHistory [c1Task] c1Prefs 0 25 [] []).totalPlannedHours
        * 60 <
      maxUsableMinutesFor [c1Task] c1Prefs 25 [] [] + 25 :=
  ⟨by with_unfolding_all decide, C1_amended [c1Task] c1Prefs 0 25 [] []
    (by with_unfolding_all decide)⟩

-- ═════════════════════════════════════════════════════════════════════
-- C2
-- ═════════════════════════════════════════════════════════════════════

set_option maxRecDepth 10000 in
/-- C2 (code bug): the proposal is not conflict-free: the block cursor is
re-initialised to the block's start for every task, so with two one-hour
tasks both get their first session at day 0, minutes [480, 505) — two
distinct sessions with identical intervals on the same day. -/
theorem C2_overlapping_sessions :
    (generateProposedWeeklySchedule [c2TaskA, c2TaskB] c2Prefs 0 25).sessions.get? 0 =
        some ⟨"session_0", "a", 0, 480, 505, 0⟩ ∧
    (generateProposedWeeklySchedule [c2TaskA, c2TaskB] c2Prefs 0 25).sessions.get? 3 =
        some ⟨"session_3", "b", 0, 480, 505, 0⟩ := by with_unfolding_all decide

-- ═════════════════════════════════════════════════════════════════════
-- C3
-- ═════════════════════════════════════════════════════════════════════

/-- C3 (counterexample): with no DailyMetrics and fatigue 0, the ceiling
is NOT `totalAvailableMinutes × 0.75`: the empty average is `0/1 = 0`,
clamped up to `0.5`, so the ceiling at 100 available minutes is 37.5, not
75. -/
theorem C3_counterexample :
    ¬ (applyAdjustmentFactorToCapacity 100 [] 0 = 100 * (3/4)) := by
  with_unfolding_all decide

/-- C3 (amended): when no DailyMetrics are supplied and
fatigueIndicator ≤ 0.3, the capacity multiplier evaluates to the clamp
floor 0.5 (not 1.0), so the ceiling equals
`totalAvailableMinutes × 0.75 × 0.5`. -/
theorem C3_amended (totalAvailableMinutes fatigueIndicator : ℚ)
    (h : fatigueIndicator ≤ 3/10) :
    applyAdjustmentFactorToCapacity totalAvailableMinutes [] fatigueIndicator =
      totalAvailableMinutes * (3/4) * (1/2) := by
  simp only [applyAdjustmentFactorToCapacity, List.map_nil, List.sum_nil, List.length_nil,
    zero_div]
  rw [if_neg (not_lt.mpr h)]
  rw [show min (1:ℚ) 0 = 0 by norm_num, show max (1/2 : ℚ) 0 = 1/2 by norm_num]

/-- C3 (witness): the amended equation at zero fatigue and 100 available
minutes. -/
theorem C3_amended_witness :
    (0:ℚ) ≤ 3/10 ∧
    applyAdjustmentFactorToCapacity 100 [] 0 = 100 * (3/4) * (1/2) :=
  ⟨by with_unfolding_all decide, C3_amended 100 0 (by with_unfolding_all decide)⟩

-- ═════════════════════════════════════════════════════════════════════
-- C4
-- ═════════════════════════════════════════════════════════════════════

set_option maxRecDepth 10000 in
/-- C4 (code bug): with zero usable capacity (wake = sleep) the code
computes `utilizationRate = 0/0`, which is NaN (modelled `none`), not the
claimed 0; moreover the rate can exceed 1 (8/7 at the C1 input). -/
theorem C4_nan_at_zero_capacity :
    maxUsableMinutesFor [c4Task] c4Prefs 25 [] [] = 0 ∧
    (generateProposedWeeklySchedule [c4Task] c4Prefs 0 25).utilizationRate = none ∧
    (1:ℚ) < ((generateProposedWeeklySchedule [c1Task] c1Prefs 0 25).utilizationRate).getD 0 :=
  by with_unfolding_all decide

-- ═════════════════════════════════════════════════════════════════════
-- C6
-- ═════════════════════════════════════════════════════════════════════

set_option maxRecDepth 10000 in
/-- C6: the cold-start scenario (wake 480, sleep 1320, no unavailable
slots, max 4 consecutive pomodoros, one 2-hour task, 25-minute pomodoro,
no history) yields exactly 5 sessions, all on day 0, with a
`round(25 × 0.4) = 10`-minute break after the 4th session: the 5th starts
at 590 = 580 + 10. -/
theorem C6_scenario :
    (generateProposedWeeklySchedule [c6Task] c6Prefs 0 25).sessions =
      [⟨"session_0", "t1", 0, 480, 505, 0⟩,
       ⟨"session_1", "t1", 0, 505, 530, 1⟩,
       ⟨"session_2", "t1", 0, 530, 555, 2⟩,
       ⟨"session_3", "t1", 0, 555, 580, 3⟩,
       ⟨"session_4", "t1", 0, 590, 615, 0⟩] := by with_unfolding_all decide

-- ═════════════════════════════════════════════════════════════════════
-- C8
-- ═════════════════════════════════════════════════════════════════════

/-- C8 (counterexample): in the rolling-history variant a day with zero
completed sessions gets focusScore 0.8, not the claimed 0. -/
theorem C8_counterexample :
    ¬ ((calculateDailyMetricsForRolling 0 [] []).focusScore = 0) := by
  with_unfolding_all decide

/-- C8 (amended): a day with zero completed sessions gets focusScore 0 in
the standard daily-metrics calculator but 0.8 in the rolling-history
variant. -/
theorem C8_amended (day : Nat) (scheduled : List ScheduledSession)
    (completed : List CompletedSession)
    (h : completed.filter (fun s => s.dayOfWeek == day) = []) :
    (calculateDailyMetrics day scheduled completed).focusScore = 0 ∧
    (calculateDailyMetricsForRolling day scheduled completed).focusScore = 4/5 := by
  constructor
  · simp [calculateDailyMetrics, h]
  · norm_num [calculateDailyMetricsForRolling, h]

/-- C8 (witness): the amended statement for day 0 with empty histories. -/
theorem C8_amended_witness :
    ([] : List CompletedSession).filter (fun s => s.dayOfWeek == 0) = [] ∧
    ((calculateDailyMetrics 0 [] []).focusScore = 0 ∧
      (calculateDailyMetricsForRolling 0 [] []).focusScore = 4/5) :=
  ⟨rfl, C8_amended 0 [] [] rfl⟩

-- ═════════════════════════════════════════════════════════════════════
-- C9
-- ═════════════════════════════════════════════════════════════════════

/-- C9: the adapter entry points are noninterfering with respect to
history: `runStudyPlanning` ignores its `completedSessions` argument and
`runStudyPlanningFromDB` ignores whatever the store returns, so the
proposal is identical across any two histories / stores. -/
theorem C9_history_noninterference (tasks : List Task) (preferences : UserPreferences)
    (currentDay : Int) (pomodoroMinutes : ℚ) (cs1 cs2 : List CompletedSession)
    (store1 store2 : String → List CompletedSession) (userId : String) :
    runStudyPlanning tasks cs1 preferences currentDay pomodoroMinutes =
        runStudyPlanning tasks cs2 preferences currentDay pomodoroMinutes ∧
    runStudyPlanningFromDB store1 userId tasks preferences currentDay pomodoroMinutes =
        runStudyPlanningFromDB store2 userId tasks preferences currentDay pomodoroMinutes :=
  ⟨rfl, rfl⟩

-- ═════════════════════════════════════════════════════════════════════
-- C10
-- ═════════════════════════════════════════════════════════════════════

theorem rolling_adherence_formula (P A : ℚ) (hP : 0 ≤ P) (hA : 0 ≤ A) :
    0 ≤ (if 0 < (if P = 0 ∧ 0 < A then A else P)
        then min (A / (if P = 0 ∧ 0 < A then A else P)) (3/2) else 1) ∧
    (if 0 < (if P = 0 ∧ 0 < A then A else P)
        then min (A / (if P = 0 ∧ 0 < A then A else P)) (3/2) else 1) ≤ 3/2 ∧
    (P = 0 →
      (if 0 < (if P = 0 ∧ 0 < A then A else P)
        then min (A / (if P = 0 ∧ 0 < A then A else P)) (3/2) else 1) = 1) := by
  by_cases hP0 : P = 0
  · by_cases hA0 : 0 < A
    · have h1 : (if P = 0 ∧ 0 < A then A else P) = A := if_pos (And.intro hP0 hA0)
      rw [h1, if_pos hA0, div_self (ne_of_gt hA0)]
      norm_num
    · have h1 : (if P = 0 ∧ 0 < A then A else P) = P := if_neg (fun hcon => hA0 hcon.2)
      rw [h1, hP0, if_neg (lt_irrefl (0:ℚ))]
      norm_num
  · have hPpos : 0 < P := lt_of_le_of_ne hP (Ne.symm hP0)
    have h1 : (if P = 0 ∧ 0 < A then A else P) = P := if_neg (fun hcon => hP0 hcon.1)
    rw [h1, if_pos hPpos]
    exact ⟨le_min (div_nonneg hA hP) (by norm_num), min_le_right _ _,
      fun hz => absurd hz hP0⟩

/-- C10: for non-negative session durations, the rolling calculator's
adherenceScore lies in [0, 1.5] (the ratio is capped at 1.5), and a day
whose planned-minutes sum is zero gets adherenceScore exactly 1. -/
theorem C10_adherence_bounds (day : Nat) (prev : List ScheduledSession)
    (completed : List CompletedSession)
    (hp : ∀ s ∈ prev, 0 ≤ s.endMinutes - s.startMinutes)
    (hc : ∀ s ∈ completed, 0 ≤ s.durationMinutes) :
    0 ≤ (calculateDailyMetricsForRolling day prev completed).adherenceScore ∧
    (calculateDailyMetricsForRolling day prev completed).adherenceScore ≤ 3/2 ∧
    (((prev.filter (fun s => s.dayOfWeek == day)).map
        (fun s => s.endMinutes - s.startMinutes)).sum = 0 →
      (calculateDailyMetricsForRolling day prev completed).adherenceScore = 1) := by
  have hpl : 0 ≤ ((prev.filter (fun s => s.dayOfWeek == day)).map
      (fun s => s.endMinutes - s.startMinutes)).sum := by
    apply List.sum_nonneg
    intro x hx
    rcases List.mem_map.mp hx with ⟨s, hs, rfl⟩
    exact hp s (List.mem_filter.mp hs).1
  have hac : 0 ≤ ((completed.filter (fun s => s.dayOfWeek == day)).map
      (·.durationMinutes)).sum := by
    apply List.sum_nonneg
    intro x hx
    rcases List.mem_map.mp hx with ⟨s, hs, rfl⟩
    exact hc s (List.mem_filter.mp hs).1
  simp only [calculateDailyMetricsForRolling]
  exact rolling_adherence_formula _ _ hpl hac

/-- C10 (witness): the bounds at day 0 with no planned sessions and one
30-minute completed session. -/
theorem C10_adherence_bounds_witness :
    0 ≤ (calculateDailyMetricsForRolling 0 []
        [⟨"t", 30, 4, 0, .morning, none⟩]).adherenceScore ∧
    (calculateDailyMetricsForRolling 0 []
        [⟨"t", 30, 4, 0, .morning, none⟩]).adherenceScore ≤ 3/2 ∧
    (((([] : List ScheduledSession).filter (fun s => s.dayOfWeek == 0)).map
        (fun s => s.endMinutes - s.startMinutes)).sum = 0 →
      (calculateDailyMetricsForRolling 0 []
        [⟨"t", 30, 4, 0, .morning, none⟩]).adherenceScore = 1) :=
  C10_adherence_bounds 0 [] [⟨"t", 30, 4, 0, .morning, none⟩]
    (by simp) (by with_unfolding_all decide)

-- ═════════════════════════════════════════════════════════════════════
-- C5: session placement lemmas
-- ═════════════════════════════════════════════════════════════════════

theorem breakMinutes_nonneg (count maxConsecutive : Nat) (rem pom : ℚ) (hpom : 0 < pom) :
    0 ≤ (shouldInsertBreak count maxConsecutive rem pom).breakMinutes := by
  simp only [shouldInsertBreak]
  split
  next => norm_num
  next =>
    split
    next =>
      dsimp only [jsRound]
      have h : (0:ℚ) ≤ pom * (4/10) + 1/2 := by nlinarith
      exact_mod_cast Int.floor_nonneg.mpr h
    next => norm_num

theorem packBlockLoop_sessions (maxConsec : Nat) (pom maxUsable : ℚ) (taskId : String)
    (day : Nat) (blockEnd : ℚ) (hpom : 0 < pom) :
    ∀ (remaining : Nat) (cursor : ℚ) (count : Nat) (st : PackState),
      ∀ s ∈ (packBlockLoop maxConsec pom maxUsable taskId day blockEnd
          remaining cursor count st).1.sessions,
        s ∈ st.sessions ∨
          (s.dayOfWeek = day ∧ cursor ≤ s.startMinutes ∧ s.endMinutes ≤ blockEnd) := by
  intro remaining
  induction remaining with
  | zero => intro cursor count st s hs; exact Or.inl (by simpa only [packBlockLoop] using hs)
  | succ r ih =>
    intro cursor count st s hs
    simp only [packBlockLoop] at hs
    split at hs
    next hcond =>
      split at hs
      next hins =>
        split at hs
        next hover => exact Or.inl hs
        next hover =>
          have hbm : 0 ≤ (shouldInsertBreak count maxConsec (blockEnd - cursor) pom).breakMinutes :=
            breakMinutes_nonneg count maxConsec (blockEnd - cursor) pom hpom
          rcases ih _ _ _ s hs with h | ⟨hd, hs1, hs2⟩
          · rcases List.mem_append.mp h with h1 | h1
            · exact Or.inl h1
            · simp only [List.mem_singleton] at h1
              subst h1
              refine Or.inr ⟨rfl, by dsimp only; linarith, by dsimp only; linarith [not_lt.mp hover]⟩
          · exact Or.inr ⟨hd, by linarith, hs2⟩
      next hins =>
        rcases ih _ _ _ s hs with h | ⟨hd, hs1, hs2⟩
        · rcases List.mem_append.mp h with h1 | h1
          · exact Or.inl h1
          · simp only [List.mem_singleton] at h1
            subst h1
            exact Or.inr ⟨rfl, le_refl _, hcond.1⟩
        · exact Or.inr ⟨hd, by linarith, hs2⟩
    next => exact Or.inl hs

theorem packBlocks_sessions (maxConsec : Nat) (pom maxUsable : ℚ) (taskId : String)
    (day : Nat) (hpom : 0 < pom) :
    ∀ (blocks : List WeightedTimeBlock) (remaining : Nat) (st : PackState),
      ∀ s ∈ (packBlocks maxConsec pom maxUsable taskId day
          blocks remaining st).1.sessions,
        s ∈ st.sessions ∨ ∃ b ∈ blocks,
          s.dayOfWeek = day ∧ b.startMinutes ≤ s.startMinutes ∧ s.endMinutes ≤ b.endMinutes := by
  intro blocks
  induction blocks with
  | nil => intro remaining st s hs; exact Or.inl (by simpa only [packBlocks] using hs)
  | cons b bs ih =>
    intro remaining st s hs
    simp only [packBlocks] at hs
    split at hs
    next => exact Or.inl hs
    next =>
      rcases ih _ _ s hs with h | ⟨b1, hb1, hprop⟩
      · rcases packBlockLoop_sessions maxConsec pom maxUsable taskId day b.endMinutes hpom
            remaining b.startMinutes (st.counts taskId) st s h with h1 | hp
        · exact Or.inl h1
        · exact Or.inr ⟨b, List.mem_cons_self _ _, hp⟩
      · exact Or.inr ⟨b1, List.mem_cons_of_mem _ hb1, hprop⟩

theorem packDays_sessions (maxConsec : Nat) (pom maxUsable : ℚ) (taskId : String)
    (hpom : 0 < pom) :
    ∀ (dayBlocks : List (Nat × List WeightedTimeBlock)) (remaining : Nat) (st : PackState),
      ∀ s ∈ (packDays maxConsec pom maxUsable taskId dayBlocks remaining st).1.sessions,
        s ∈ st.sessions ∨ ∃ p ∈ dayBlocks, ∃ b ∈ p.2,
          s.dayOfWeek = p.1 ∧ b.startMinutes ≤ s.startMinutes ∧ s.endMinutes ≤ b.endMinutes := by
  intro dayBlocks
  induction dayBlocks with
  | nil => intro remaining st s hs; exact Or.inl (by simpa only [packDays] using hs)
  | cons p rest ih =>
    intro remaining st s hs
    simp only [packDays] at hs
    split at hs
    next => exact Or.inl hs
    next =>
      rcases ih _ _ s hs with h | ⟨p1, hp1, hprop⟩
      · rcases packBlocks_sessions maxConsec pom maxUsable taskId p.1 hpom
            p.2 remaining st s h with h1 | ⟨b, hb, hprop⟩
        · exact Or.inl h1
        · exact Or.inr ⟨p, List.mem_cons_self _ _, b, hb, hprop⟩
      · exact Or.inr ⟨p1, List.mem_cons_of_mem _ hp1, hprop⟩

theorem packTasks_sessions (maxConsec : Nat) (pom maxUsable : ℚ)
    (weekBlocks : List (Nat × List WeightedTimeBlock)) (hpom : 0 < pom) :
    ∀ (ts : List Task) (st : PackState),
      ∀ s ∈ (packTasks maxConsec pom maxUsable weekBlocks ts st).sessions,
        s ∈ st.sessions ∨ ∃ p ∈ weekBlocks, ∃ b ∈ p.2,
          s.dayOfWeek = p.1 ∧ b.startMinutes ≤ s.startMinutes ∧ s.endMinutes ≤ b.endMinutes := by
  intro ts
  induction ts with
  | nil => intro st s hs; exact Or.inl (by simpa only [packTasks] using hs)
  | cons t rest ih =>
    intro st s hs
    simp only [packTasks] at hs
    rcases ih _ s hs with h | hprop
    · rcases packDays_sessions maxConsec pom maxUsable t.id hpom weekBlocks
          (sessionsNeededFor t.estimatedHours pom) st s h with h1 | hprop
      · exact Or.inl h1
      · exact Or.inr hprop
    · exact Or.inr hprop

-- ═════════════════════════════════════════════════════════════════════
-- C5
-- ═════════════════════════════════════════════════════════════════════

set_option maxRecDepth 10000 in
/-- C5 (counterexample): with well-formed unavailable slots (0 ≤ start <
end < 1440) a session can still land outside [wake, sleep): sleep 600 but
a slot [700, 800) makes the free block run to 700, and a 25-minute
session ends at 605 > 600. -/
theorem C5_counterexample :
    ∃ s ∈ (generateProposedWeeklySchedule [c5Task] c5Prefs 0 25).sessions,
      c5Prefs.sleepTimeMinutes < s.endMinutes := by with_unfolding_all decide

/-- C5 (amended): for a positive pomodoro length, every scheduled session
lies within one of its day's free blocks, unconditionally; and when
additionally every unavailable slot starts no later than sleep time,
every session lies within [wakeTimeMinutes, sleepTimeMinutes]. -/
theorem C5_amended (tasks : List Task) (preferences : UserPreferences) (currentDay : Int)
    (pomodoroMinutes : ℚ) (completedSessions : List CompletedSession)
    (dailyMetrics : List DailyMetrics) (hpom : 0 < pomodoroMinutes) :
    (∀ s ∈ (generateProposedWeeklyScheduleWithHistory tasks preferences currentDay
        pomodoroMinutes completedSessions dailyMetrics).sessions,
      ∃ tb ∈ calculateAvailableBlocks s.dayOfWeek preferences pomodoroMinutes,
        tb.startMinutes ≤ s.startMinutes ∧ s.endMinutes ≤ tb.endMinutes) ∧
    ((∀ sl ∈ preferences.unavailableSlots,
        sl.startMinutes ≤ preferences.sleepTimeMinutes) →
      ∀ s ∈ (generateProposedWeeklyScheduleWithHistory tasks preferences currentDay
          pomodoroMinutes completedSessions dailyMetrics).sessions,
        preferences.wakeTimeMinutes ≤ s.startMinutes ∧
          s.endMinutes ≤ preferences.sleepTimeMinutes) := by
  have key : ∀ s ∈ (generateProposedWeeklyScheduleWithHistory tasks preferences currentDay
      pomodoroMinutes completedSessions dailyMetrics).sessions,
      ∃ tb ∈ calculateAvailableBlocks s.dayOfWeek preferences pomodoroMinutes,
        tb.startMinutes ≤ s.startMinutes ∧ s.endMinutes ≤ tb.endMinutes := by
    intro s hs
    simp only [generateProposedWeeklyScheduleWithHistory] at hs
    rcases packTasks_sessions preferences.maxConsecutivePomodoros pomodoroMinutes
        (maxUsableMinutesFor tasks preferences pomodoroMinutes completedSessions dailyMetrics)
        (weekBlocksFor tasks completedSessions preferences pomodoroMinutes) hpom
        (sortTasksByPriority tasks currentDay) ⟨[], 0, 0, fun _ => 0⟩ s hs with h | hprop
    · simp at h
    · rcases hprop with ⟨p, hp, b, hb, hd, h1, h2⟩
      simp only [weekBlocksFor, List.mem_map] at hp
      rcases hp with ⟨day, _, rfl⟩
      have htb := mem_weightAndSortBlocks _ _ _ b hb
      refine ⟨b.toTimeBlock, ?_, h1, h2⟩
      rw [hd]
      exact htb
  refine ⟨key, fun hslots s hs => ?_⟩
  rcases key s hs with ⟨tb, htb, h1, h2⟩
  have hw := blocks_in_window s.dayOfWeek preferences pomodoroMinutes hslots tb htb
  exact ⟨le_trans hw.1 h1, le_trans h2 hw.2⟩

set_option maxRecDepth 10000 in
/-- C5 (witness): the within-block half applied at the counterexample's
own slot-past-sleep preferences (its first session [480, 505) on day 0),
and the [wake, sleep] half applied at slot-free preferences to the same
session values. -/
theorem C5_amended_witness :
    (0:ℚ) < 25 ∧
    (∃ tb ∈ calculateAvailableBlocks c5wSession.dayOfWeek c5Prefs 25,
        tb.startMinutes ≤ c5wSession.startMinutes ∧
          c5wSession.endMinutes ≤ tb.endMinutes) ∧
    (c5wPrefs.wakeTimeMinutes ≤ c5wSession.startMinutes ∧
      c5wSession.endMinutes ≤ c5wPrefs.sleepTimeMinutes) :=
  ⟨by with_unfolding_all decide,
    (C5_amended [c5Task] c5Prefs 0 25 [] [] (by with_unfolding_all decide)).1
      c5wSession (by with_unfolding_all decide),
    (C5_amended [c5wTask] c5wPrefs 0 25 [] [] (by with_unfolding_all decide)).2
      (by simp [c5wPrefs]) c5wSession (by with_unfolding_all decide)⟩

-- ═════════════════════════════════════════════════════════════════════
-- C7
-- ═════════════════════════════════════════════════════════════════════

set_option maxRecDepth 10000 in
/-- C7 (counterexample): overdue task (deadline today, urgency 0) against
a future-deadline task with urgency 100 (difference exactly 100) and one
extra estimated hour: the future task scores 10510 > 10000 and is ordered
first, refuting the claim. -/
theorem C7_counterexample :
    calculateTaskPriority c7Overdue 0 < calculateTaskPriority c7Future 0 ∧
    sortTasksByPriority [c7Overdue, c7Future] 0 = [c7Future, c7Overdue] := by
  with_unfolding_all decide

/-- C7 (amended): an overdue task is strictly prioritised over (and
ordered before) a future-deadline task when the urgency difference is at
most 94 and the future task's estimatedHours do not exceed the overdue
task's. -/
theorem C7_amended (overdueTask futureTask : Task) (currentDay : Int) (dO dF : Int)
    (hO : overdueTask.deadlineDayIndex = some dO) (hOd : dO ≤ currentDay)
    (hF : futureTask.deadlineDayIndex = some dF) (hFd : currentDay < dF)
    (hu : futureTask.urgency - overdueTask.urgency ≤ 94)
    (he : futureTask.estimatedHours ≤ overdueTask.estimatedHours) :
    calculateTaskPriority futureTask currentDay <
      calculateTaskPriority overdueTask currentDay ∧
    sortTasksByPriority [futureTask, overdueTask] currentDay =
      [overdueTask, futureTask] := by
  have hlt : calculateTaskPriority futureTask currentDay <
      calculateTaskPriority overdueTask currentDay := by
    simp only [calculateTaskPriority, hO, hF]
    rw [if_neg (by omega : ¬ ((0:ℤ) < dO - currentDay)),
      if_pos (by omega : (0:ℤ) < dF - currentDay)]
    have hcast : (1:ℚ) ≤ ((dF - currentDay : ℤ) : ℚ) := by exact_mod_cast (by omega : (1:ℤ) ≤ dF - currentDay)
    have hpos : (0:ℚ) < ((dF - currentDay : ℤ) : ℚ) := by linarith
    have hdiv : (1:ℚ) / ((dF - currentDay : ℤ) : ℚ) ≤ 1 := by
      rw [div_le_one hpos]
      exact hcast
    linarith
  refine ⟨hlt, ?_⟩
  have hnotle : ¬ (calculateTaskPriority overdueTask currentDay ≤
      calculateTaskPriority futureTask currentDay) := not_le.mpr hlt
  unfold sortTasksByPriority stableSort
  simp only [List.foldl_cons, List.foldl_nil, insertSorted]
  rw [if_neg (by simpa using hnotle)]

/-- C7 (witness): the amended ordering at urgencies 0 vs 50, equal
one-hour estimates, deadline today vs in two days. -/
theorem C7_amended_witness :
    calculateTaskPriority c7wFuture 0 < calculateTaskPriority c7wOverdue 0 ∧
    sortTasksByPriority [c7wFuture, c7wOverdue] 0 = [c7wOverdue, c7wFuture] :=
  C7_amended c7wOverdue c7wFuture 0 0 2 rfl (by decide) rfl (by decide)
    (by with_unfolding_all decide) (by with_unfolding_all decide)

end StudyEngine

